import Mathlib

/-!
Verification of the TheReview backend core: the role/permission resolution
logic (app/api/v1/user.py and app/utils/user_managemet.py) and the review
CRUD/query/aggregation service (app/services/review_service.py), shallowly
embedded in Lean.  Python dicts holding user documents are modelled as
structures with optional fields, Python exceptions as an Except monad,
SQL floats as rationals, timestamps as naturals, and the reviews table as
an explicit list-backed store.
-/

namespace TheReview

/-! String literals used by the embedded code, named so they can be
reused in terms. -/

def adminStr : String := "admin"

def teacherStr : String := "teacher"

def studentStr : String := "student"

def createStr : String := "create"

def viewStr : String := "view"

def updateStr : String := "update"

def deleteStr : String := "delete"

/-- The UserRole enum of app/models/user.py: ADMIN, TEACHER, STUDENT. -/
inductive UserRole where
  | ADMIN
  | TEACHER
  | STUDENT
deriving DecidableEq

/-- Python-level errors that the permission code can raise. -/
inductive PyErr where
  | attributeError
  | valueError
deriving DecidableEq

/-- Python attribute access UserRole.NAME: returns the member when NAME is
one of ADMIN, TEACHER, STUDENT and raises AttributeError otherwise. -/
def userRoleAttr (name : String) : Except PyErr UserRole :=
  if name = "ADMIN" then .ok .ADMIN
  else if name = "TEACHER" then .ok .TEACHER
  else if name = "STUDENT" then .ok .STUDENT
  else .error .attributeError

/-- Python enum value coercion UserRole(s) for a string s: succeeds on the
member values and raises ValueError otherwise. -/
def coerceUserRole (s : String) : Except PyErr UserRole :=
  if s = adminStr then .ok .ADMIN
  else if s = teacherStr then .ok .TEACHER
  else if s = studentStr then .ok .STUDENT
  else .error .valueError

/-- A user document as stored in Mongo: an _id and an optional role value
(the value stored under the key called role, when that key is present). -/
structure UserDoc where
  _id : String
  role : Option String
deriving DecidableEq

/-- A full capability record: one row of ROLE_PERMISSIONS. -/
structure Perms where
  can_create : List UserRole
  can_view : List UserRole
  can_update : List UserRole
  can_delete : List UserRole
  can_manage_all : Bool
deriving DecidableEq

/-- The static ROLE_PERMISSIONS matrix of app/models/user.py. -/
def ROLE_PERMISSIONS : UserRole → Perms
  | .ADMIN =>
      { can_create := [.ADMIN, .TEACHER, .STUDENT]
        can_view := [.ADMIN, .TEACHER, .STUDENT]
        can_update := [.ADMIN, .TEACHER, .STUDENT]
        can_delete := [.ADMIN, .TEACHER, .STUDENT]
        can_manage_all := true }
  | .TEACHER =>
      { can_create := [.STUDENT]
        can_view := [.TEACHER, .STUDENT]
        can_update := [.STUDENT]
        can_delete := [.STUDENT]
        can_manage_all := false }
  | .STUDENT =>
      { can_create := []
        can_view := [.STUDENT]
        can_update := []
        can_delete := []
        can_manage_all := false }

/-- A per-user custom permission dict: each capability key is either absent
or present with a full replacement value (USER_CUSTOM_PERMISSIONS entry). -/
structure PermOverride where
  can_create : Option (List UserRole)
  can_view : Option (List UserRole)
  can_update : Option (List UserRole)
  can_delete : Option (List UserRole)
  can_manage_all : Option Bool
deriving DecidableEq

/-- The empty override dict. -/
def emptyOverride : PermOverride :=
  { can_create := none, can_view := none, can_update := none
    can_delete := none, can_manage_all := none }

/-- The USER_CUSTOM_PERMISSIONS global, modelled as an association list
keyed by user id; lookup mirrors dict.get. -/
def lookupOverride (m : List (String × PermOverride)) (k : String) :
    Option PermOverride :=
  (m.find? (fun kv => kv.1 == k)).map (fun kv => kv.2)

namespace ApiUser

/-- get_user_role of app/api/v1/user.py:
UserRole(user.get(role-key, UserRole.STUDENT)). -/
def get_user_role (u : UserDoc) : Except PyErr UserRole :=
  match u.role with
  | some s => coerceUserRole s
  | none => .ok .STUDENT

/-- get_user_permissions of app/api/v1/user.py: base role permissions from
ROLE_PERMISSIONS overlaid with USER_CUSTOM_PERMISSIONS.get(user id, empty)
by Python dict merge, so each key present in the override replaces the base
value for that key. -/
def get_user_permissions (custom : List (String × PermOverride))
    (u : UserDoc) : Except PyErr Perms :=
  match get_user_role u with
  | .error e => .error e
  | .ok role =>
      let base := ROLE_PERMISSIONS role
      let ov := (lookupOverride custom u._id).getD emptyOverride
      .ok { can_create := ov.can_create.getD base.can_create
            can_view := ov.can_view.getD base.can_view
            can_update := ov.can_update.getD base.can_update
            can_delete := ov.can_delete.getD base.can_delete
            can_manage_all := ov.can_manage_all.getD base.can_manage_all }

/-- check_permission of app/api/v1/user.py: computes the merged
permissions, then denies teacher → admin unconditionally, then dispatches
on the action string, returning false for unrecognized actions. -/
def check_permission (custom : List (String × PermOverride)) (u : UserDoc)
    (target : UserRole) (action : String) : Except PyErr Bool :=
  match get_user_permissions custom u with
  | .error e => .error e
  | .ok perms =>
      match get_user_role u with
      | .error e => .error e
      | .ok r =>
          if r = .TEACHER ∧ target = .ADMIN then .ok false
          else if action = createStr then
            .ok (decide (target ∈ perms.can_create ∨
              (perms.can_manage_all ∧ target ≠ .ADMIN)))
          else if action = viewStr then
            .ok (decide (target ∈ perms.can_view ∨
              (perms.can_manage_all ∧ target ≠ .ADMIN)))
          else if action = updateStr then
            .ok (decide (target ∈ perms.can_update ∨
              (perms.can_manage_all ∧ target ≠ .ADMIN)))
          else if action = deleteStr then
            .ok (decide (target ∈ perms.can_delete ∨
              (perms.can_manage_all ∧ target ≠ .ADMIN)))
          else .ok false

end ApiUser

namespace UtilsUser

/-- get_user_role of app/utils/user_managemet.py:
UserRole(user.get(role-key, UserRole.REVIEWER)).  The default argument
expression UserRole.REVIEWER is evaluated before the .get call on every
invocation, whether or not the role key is present. -/
def get_user_role (u : UserDoc) : Except PyErr UserRole :=
  match userRoleAttr "REVIEWER" with
  | .error e => .error e
  | .ok d =>
      match u.role with
      | some s => coerceUserRole s
      | none => .ok d

/-- get_user_permissions of app/utils/user_managemet.py: identical merge
logic to the api variant, but built on this module's get_user_role. -/
def get_user_permissions (custom : List (String × PermOverride))
    (u : UserDoc) : Except PyErr Perms :=
  match get_user_role u with
  | .error e => .error e
  | .ok role =>
      let base := ROLE_PERMISSIONS role
      let ov := (lookupOverride custom u._id).getD emptyOverride
      .ok { can_create := ov.can_create.getD base.can_create
            can_view := ov.can_view.getD base.can_view
            can_update := ov.can_update.getD base.can_update
            can_delete := ov.can_delete.getD base.can_delete
            can_manage_all := ov.can_manage_all.getD base.can_manage_all }

/-- check_permission of app/utils/user_managemet.py: unlike the api
variant there is no teacher → admin special case; the function dispatches
directly on the action string. -/
def check_permission (custom : List (String × PermOverride)) (u : UserDoc)
    (target : UserRole) (action : String) : Except PyErr Bool :=
  match get_user_permissions custom u with
  | .error e => .error e
  | .ok perms =>
      if action = createStr then
        .ok (decide (target ∈ perms.can_create ∨
          (perms.can_manage_all ∧ target ≠ .ADMIN)))
      else if action = viewStr then
        .ok (decide (target ∈ perms.can_view ∨
          (perms.can_manage_all ∧ target ≠ .ADMIN)))
      else if action = updateStr then
        .ok (decide (target ∈ perms.can_update ∨
          (perms.can_manage_all ∧ target ≠ .ADMIN)))
      else if action = deleteStr then
        .ok (decide (target ∈ perms.can_delete ∨
          (perms.can_manage_all ∧ target ≠ .ADMIN)))
      else .ok false

end UtilsUser

/-! The review data model of app/models/review.py, with floats as
rationals, timestamps as naturals, uuids as naturals drawn from a
store-level counter, and the JSONB metadata column as an association
list. -/

/-- The EntityType enum of app/models/review.py. -/
inductive EntityType where
  | COMPANY
  | RESTAURANT
  | RENTAL_PROPERTY
  | HOTEL
  | PLACE
  | SERVICE
  | PRODUCT
  | HEALTHCARE
  | EDUCATION
  | ENTERTAINMENT
  | OTHER
deriving DecidableEq

/-- The Platform enum of app/models/review.py. -/
inductive Platform where
  | GOOGLE
  | YELP
  | TRIPADVISOR
  | TRUSTPILOT
  | TWITTER
  | LINKEDIN
  | FACEBOOK
  | REDDIT
  | ZILLOW
  | AIRBNB
  | BOOKING
  | AMAZON
  | GLASSDOOR
  | BBB
  | FOURSQUARE
  | YOUTUBE
  | APPSTORE
  | PLAYSTORE
  | OTHER
deriving DecidableEq

/-- One row of the reviews table. -/
structure Review where
  id : Nat
  entity_type : EntityType
  entity_name : String
  entity_identifier : Option String
  platform : Platform
  platform_review_id : String
  reviewer_name : Option String
  reviewer_identifier : Option String
  reviewer_profile_url : Option String
  rating : Option Rat
  review_title : Option String
  review_text : String
  review_url : Option String
  review_date : Nat
  scraped_at : Nat
  helpful_count : Nat
  verified : Bool
  sentiment_score : Option Rat
  response_text : Option String
  response_date : Option Nat
  images : Option (List String)
  extra_data : Option (List (String × String))
  is_active : Bool
  created_at : Nat
  updated_at : Nat
deriving DecidableEq

/-- The reviews table plus the id generator backing gen_random_uuid. -/
structure Store where
  rows : List Review
  nextId : Nat
deriving DecidableEq

/-- The ReviewCreate schema of app/schemas/review.py (the ReviewBase
fields; id, scraped_at, is_active and the audit timestamps are
server-side). -/
structure ReviewCreate where
  entity_type : EntityType
  entity_name : String
  entity_identifier : Option String
  platform : Platform
  platform_review_id : String
  reviewer_name : Option String
  reviewer_identifier : Option String
  reviewer_profile_url : Option String
  rating : Option Rat
  review_title : Option String
  review_text : String
  review_url : Option String
  review_date : Nat
  helpful_count : Nat
  verified : Bool
  sentiment_score : Option Rat
  response_text : Option String
  response_date : Option Nat
  images : Option (List String)
  extra_data : Option (List (String × String))
deriving DecidableEq

/-- The ReviewUpdate schema of app/schemas/review.py: every field is
optional, and with exclude_unset an absent field (outer none) is
distinguished from a field explicitly set; for nullable columns the set
value is itself optional, so an explicit null (some none) clears the
column.  Explicit nulls on non-nullable columns are excluded from the
model since they would violate the NOT NULL constraints at commit. -/
structure ReviewUpdate where
  entity_type : Option EntityType
  entity_name : Option String
  entity_identifier : Option (Option String)
  platform : Option Platform
  platform_review_id : Option String
  reviewer_name : Option (Option String)
  reviewer_identifier : Option (Option String)
  reviewer_profile_url : Option (Option String)
  rating : Option (Option Rat)
  review_title : Option (Option String)
  review_text : Option String
  review_url : Option (Option String)
  review_date : Option Nat
  helpful_count : Option Nat
  verified : Option Bool
  sentiment_score : Option (Option Rat)
  response_text : Option (Option String)
  response_date : Option (Option Nat)
  images : Option (Option (List String))
  extra_data : Option (Option (List (String × String)))
  is_active : Option Bool
deriving DecidableEq

/-- A ReviewUpdate with every field unset. -/
def emptyUpdate : ReviewUpdate :=
  { entity_type := none, entity_name := none, entity_identifier := none
    platform := none, platform_review_id := none, reviewer_name := none
    reviewer_identifier := none, reviewer_profile_url := none
    rating := none, review_title := none, review_text := none
    review_url := none, review_date := none, helpful_count := none
    verified := none, sentiment_score := none, response_text := none
    response_date := none, images := none, extra_data := none
    is_active := none }

/-- Database-level errors surfaced by commit. -/
inductive DbErr where
  | duplicateKey
deriving DecidableEq

namespace ReviewService

/-- create_review of app/services/review_service.py: builds a Review from
the schema data, stamps scraped_at, and commits; the unique constraint on
platform_review_id (declared in app/models/review.py) makes the commit
fail with a duplicate-key error when a row with the same
platform_review_id already exists, leaving the store unchanged. -/
def create_review (now : Nat) (s : Store) (d : ReviewCreate) :
    Except DbErr Review × Store :=
  if s.rows.any (fun r => r.platform_review_id == d.platform_review_id)
  then (.error .duplicateKey, s)
  else
    let r : Review :=
      { id := s.nextId
        entity_type := d.entity_type
        entity_name := d.entity_name
        entity_identifier := d.entity_identifier
        platform := d.platform
        platform_review_id := d.platform_review_id
        reviewer_name := d.reviewer_name
        reviewer_identifier := d.reviewer_identifier
        reviewer_profile_url := d.reviewer_profile_url
        rating := d.rating
        review_title := d.review_title
        review_text := d.review_text
        review_url := d.review_url
        review_date := d.review_date
        scraped_at := now
        helpful_count := d.helpful_count
        verified := d.verified
        sentiment_score := d.sentiment_score
        response_text := d.response_text
        response_date := d.response_date
        images := d.images
        extra_data := d.extra_data
        is_active := true
        created_at := now
        updated_at := now }
    (.ok r, { rows := s.rows ++ [r], nextId := s.nextId + 1 })

/-- Pointwise match of a percent-free pattern segment against a prefix
of the text: an underscore in the pattern matches any single character,
every other pattern character matches exactly (both sides are already
lowercased). -/
def segMatchesAt : List Char → List Char → Bool
  | [], _ => true
  | _ :: _, [] => false
  | c :: cs, t :: ts =>
      ((c == ('_' : Char)) || (c == t)) && segMatchesAt cs ts

/-- Earliest placement of a segment in the text: returns the text that
remains after the first position where the segment matches, or none when
the segment matches nowhere. -/
def findSegRest (seg : List Char) : List Char → Option (List Char)
  | [] => if segMatchesAt seg [] then some [] else none
  | t :: ts =>
      if segMatchesAt seg (t :: ts) then
        some (List.drop seg.length (t :: ts))
      else findSegRest seg ts

/-- Greedy matching of the percent-separated segments of a LIKE pattern
that is wrapped in percent wildcards on both sides: each segment is
placed at its earliest occurrence in the remaining text; leading and
trailing text may remain unmatched.  Earliest placement is equivalent to
the existential LIKE placement semantics, proved below as segsMatch_iff
against SegsHolds. -/
def segsMatch : List (List Char) → List Char → Bool
  | [], _ => true
  | seg :: rest, text =>
      match findSegRest seg text with
      | none => false
      | some ts => segsMatch rest ts

/-- Splits a LIKE pattern on its percent wildcards into the literal
segments between them. -/
def splitOnPercent : List Char → List (List Char)
  | [] => [[]]
  | c :: cs =>
      if c == ('%' : Char) then [] :: splitOnPercent cs
      else
        match splitOnPercent cs with
        | [] => [[c]]
        | h :: t => (c :: h) :: t

/-- The meaning of ilike applied to the user-supplied value wrapped in
percent wildcards on both sides (the service interpolates the value into
the pattern without escaping it): matching is case-insensitive, a
percent in the value matches any character sequence and an underscore
any single character; a value free of both wildcard characters reduces
to a case-insensitive substring test. -/
def ciContains (hay pat : String) : Bool :=
  segsMatch (splitOnPercent (pat.data.map Char.toLower))
    (hay.data.map Char.toLower)

/-- LIKE placement semantics for a pattern wrapped in percent wildcards:
the percent-separated segments occur in order, without overlap, anywhere
in the text. -/
def SegsHolds : List (List Char) → List Char → Prop
  | [], _ => True
  | seg :: rest, text =>
      ∃ i, segMatchesAt seg (text.drop i) = true ∧
        SegsHolds rest (text.drop (i + seg.length))

/-- Stable insertion of a review into a list kept in descending
review_date order. -/
def insertDesc (r : Review) : List Review → List Review
  | [] => [r]
  | x :: xs =>
      if x.review_date ≤ r.review_date then r :: x :: xs
      else x :: insertDesc r xs

/-- ORDER BY review_date DESC, realized as insertion sort. -/
def sortDateDesc (l : List Review) : List Review :=
  l.foldr insertDesc []

/-- The source pattern if arg is not None (falsy only when None for these
argument types): query = query.where(test arg). -/
def optWhere {α : Type} (arg : Option α) (test : α → Review → Bool)
    (q : List Review) : List Review :=
  match arg with
  | some v => q.filter (test v)
  | none => q

/-- The source pattern if arg: query = query.where(test arg) for a string
argument, where Python truthiness also skips the filter on an empty
string. -/
def strWhere (arg : Option String) (test : String → Review → Bool)
    (q : List Review) : List Review :=
  match arg with
  | some v => if v = "" then q else q.filter (test v)
  | none => q

/-- The source pattern if flag: query = query.where(test). -/
def boolWhere (flag : Bool) (test : Review → Bool) (q : List Review) :
    List Review :=
  if flag then q.filter test else q

/-- The rating-bound tests compare against a present rating; a SQL
comparison with a NULL rating is not true, so unrated rows are dropped. -/
def minRatingTest (m : Rat) (r : Review) : Bool :=
  match r.rating with
  | some x => decide (m ≤ x)
  | none => false

def maxRatingTest (m : Rat) (r : Review) : Bool :=
  match r.rating with
  | some x => decide (x ≤ m)
  | none => false

/-- get_reviews of app/services/review_service.py: chained optional
filters, descending review_date order, then offset and limit. -/
def get_reviews (s : Store) (entity_type : Option EntityType)
    (entity_name : Option String) (entity_identifier : Option String)
    (platform : Option Platform) (min_rating : Option Rat)
    (max_rating : Option Rat) (verified_only : Bool) (is_active : Bool)
    (limit : Nat) (offset : Nat) : List Review :=
  let q := s.rows.filter (fun r => decide (r.is_active = is_active))
  let q := optWhere entity_type
    (fun et r => decide (r.entity_type = et)) q
  let q := strWhere entity_name
    (fun en r => ciContains r.entity_name en) q
  let q := strWhere entity_identifier
    (fun ei r => decide (r.entity_identifier = some ei)) q
  let q := optWhere platform (fun p r => decide (r.platform = p)) q
  let q := optWhere min_rating minRatingTest q
  let q := optWhere max_rating maxRatingTest q
  let q := boolWhere verified_only (fun r => r.verified) q
  ((sortDateDesc q).drop offset).take limit

/-- The filter block of get_reviews_paginated: is_active plus the three
optional filters. -/
def pagFiltered (s : Store) (entity_type : Option EntityType)
    (platform : Option Platform) (min_rating : Option Rat) : List Review :=
  let q := s.rows.filter (fun r => r.is_active)
  let q := optWhere entity_type
    (fun et r => decide (r.entity_type = et)) q
  let q := optWhere platform (fun p r => decide (r.platform = p)) q
  let q := optWhere min_rating minRatingTest q
  q

/-- get_reviews_paginated of app/services/review_service.py: builds the
filtered query, counts it before pagination, then orders and windows with
offset (page - 1) * page_size. -/
def get_reviews_paginated (s : Store) (page : Nat) (page_size : Nat)
    (entity_type : Option EntityType) (platform : Option Platform)
    (min_rating : Option Rat) : List Review × Nat :=
  let q := pagFiltered s entity_type platform min_rating
  let total := q.length
  let offset := (page - 1) * page_size
  (((sortDateDesc q).drop offset).take page_size, total)

/-- update_review of app/services/review_service.py: looks the row up by
id, applies exactly the fields present in the payload (model_dump with
exclude_unset), always refreshes updated_at, and commits. -/
def update_review (now : Nat) (s : Store) (id : Nat) (p : ReviewUpdate) :
    Option Review × Store :=
  match s.rows.find? (fun x => x.id == id) with
  | none => (none, s)
  | some r =>
      let r2 : Review :=
        { id := r.id
          entity_type := p.entity_type.getD r.entity_type
          entity_name := p.entity_name.getD r.entity_name
          entity_identifier := p.entity_identifier.getD r.entity_identifier
          platform := p.platform.getD r.platform
          platform_review_id :=
            p.platform_review_id.getD r.platform_review_id
          reviewer_name := p.reviewer_name.getD r.reviewer_name
          reviewer_identifier :=
            p.reviewer_identifier.getD r.reviewer_identifier
          reviewer_profile_url :=
            p.reviewer_profile_url.getD r.reviewer_profile_url
          rating := p.rating.getD r.rating
          review_title := p.review_title.getD r.review_title
          review_text := p.review_text.getD r.review_text
          review_url := p.review_url.getD r.review_url
          review_date := p.review_date.getD r.review_date
          scraped_at := r.scraped_at
          helpful_count := p.helpful_count.getD r.helpful_count
          verified := p.verified.getD r.verified
          sentiment_score := p.sentiment_score.getD r.sentiment_score
          response_text := p.response_text.getD r.response_text
          response_date := p.response_date.getD r.response_date
          images := p.images.getD r.images
          extra_data := p.extra_data.getD r.extra_data
          is_active := p.is_active.getD r.is_active
          created_at := r.created_at
          updated_at := now }
      (some r2,
        { s with rows := s.rows.map (fun x => if x.id == id then r2 else x) })

/-- delete_review of app/services/review_service.py: looks the row up by
id; missing id returns false and leaves the store unchanged; soft delete
marks the row inactive and refreshes updated_at; hard delete removes the
row. -/
def delete_review (now : Nat) (s : Store) (id : Nat) (soft : Bool) :
    Bool × Store :=
  match s.rows.find? (fun x => x.id == id) with
  | none => (false, s)
  | some _ =>
      if soft then
        (true,
          { s with rows := s.rows.map (fun x =>
              if x.id == id then
                { x with is_active := false, updated_at := now }
              else x) })
      else
        (true, { s with rows := s.rows.filter (fun x => !(x.id == id)) })

/-- get_average_rating of app/services/review_service.py: SQL AVG over
the non-null ratings of the active reviews of the entity (null on an
empty set), post-processed by the Python truthiness expression that maps
both a null and a zero average to none. -/
def get_average_rating (s : Store) (eid : String) : Option Rat :=
  let rs := (s.rows.filter (fun r =>
      decide (r.entity_identifier = some eid) && r.is_active &&
        decide (r.rating ≠ none))).filterMap (fun r => r.rating)
  let avg : Option Rat :=
    if rs.length = 0 then none else some (rs.sum / (rs.length : Rat))
  match avg with
  | none => none
  | some a => if a = 0 then none else some a

end ReviewService

/-- The conjunction of the supplied optional filters of get_reviews, as
the specification states them: entity_type exact, entity_name
case-insensitive substring, entity_identifier exact when non-empty,
platform exact, min_rating and max_rating inclusive bounds on a present
rating, verified_only restricting to verified rows, and is_active
matching the requested activity flag. -/
def specMatches (entity_type : Option EntityType)
    (entity_name : Option String) (entity_identifier : Option String)
    (platform : Option Platform) (min_rating : Option Rat)
    (max_rating : Option Rat) (verified_only : Bool) (is_active : Bool)
    (r : Review) : Bool :=
  (decide (r.is_active = is_active)) &&
  (match entity_type with
    | some et => decide (r.entity_type = et)
    | none => true) &&
  (match entity_name with
    | some en => ReviewService.ciContains r.entity_name en
    | none => true) &&
  (match entity_identifier with
    | some ei =>
        if ei = "" then true else decide (r.entity_identifier = some ei)
    | none => true) &&
  (match platform with
    | some p => decide (r.platform = p)
    | none => true) &&
  (match min_rating with
    | some m => ReviewService.minRatingTest m r
    | none => true) &&
  (match max_rating with
    | some m => ReviewService.maxRatingTest m r
    | none => true) &&
  (!verified_only || r.verified)

/-! Concrete inputs used to instantiate the permission theorems. -/

def c1id : String := "u1"

/-- A teacher user document. -/
def c1user : UserDoc := { _id := c1id, role := some teacherStr }

/-- An override granting a teacher can_update over admins. -/
def c1ov : PermOverride :=
  { can_create := none, can_view := none, can_update := some [.ADMIN]
    can_delete := none, can_manage_all := none }

def c1custom : List (String × PermOverride) := [(c1id, c1ov)]

def c3id : String := "t1"

def c3user : UserDoc := { _id := c3id, role := some teacherStr }

def c3ov : PermOverride :=
  { can_create := none, can_view := none, can_update := some [.ADMIN]
    can_delete := none, can_manage_all := none }

def c3custom : List (String × PermOverride) := [(c3id, c3ov)]

/-- The effective permissions of c3user: teacher base with can_update
replaced by the override. -/
def c3perms : Perms :=
  { can_create := [.STUDENT], can_view := [.TEACHER, .STUDENT]
    can_update := [.ADMIN], can_delete := [.STUDENT]
    can_manage_all := false }

def c4id : String := "t2"

def c4user : UserDoc := { _id := c4id, role := some teacherStr }

/-- An override that sets can_create to the empty list. -/
def c4ov : PermOverride :=
  { can_create := some [], can_view := none, can_update := none
    can_delete := none, can_manage_all := none }

def c4custom : List (String × PermOverride) := [(c4id, c4ov)]

/-- The effective permissions of c4user: teacher base with can_create
replaced by the empty list. -/
def c4perms : Perms :=
  { can_create := [], can_view := [.TEACHER, .STUDENT]
    can_update := [.STUDENT], can_delete := [.STUDENT]
    can_manage_all := false }

/-! Concrete inputs used to instantiate the review-service theorems. -/

def xStr : String := "x"

def eStr : String := "e"

/-- A template review row with default-like values. -/
def baseReview : Review :=
  { id := 0, entity_type := .OTHER, entity_name := xStr
    entity_identifier := none, platform := .OTHER
    platform_review_id := xStr, reviewer_name := none
    reviewer_identifier := none, reviewer_profile_url := none
    rating := none, review_title := none, review_text := xStr
    review_url := none, review_date := 0, scraped_at := 0
    helpful_count := 0, verified := false, sentiment_score := none
    response_text := none, response_date := none, images := none
    extra_data := none, is_active := true, created_at := 0
    updated_at := 0 }

/-- An active review of entity e carrying the rating 0.0. -/
def c5review : Review :=
  { baseReview with
    id := 1
    entity_identifier := some eStr
    rating := some 0 }

def c5store : Store := { rows := [c5review], nextId := 2 }

def c6review : Review := { baseReview with id := 1 }

def c6store : Store := { rows := [c6review], nextId := 2 }

/-- Creation data reusing the platform_review_id of c6review. -/
def c6data : ReviewCreate :=
  { entity_type := .OTHER, entity_name := xStr, entity_identifier := none
    platform := .OTHER, platform_review_id := xStr, reviewer_name := none
    reviewer_identifier := none, reviewer_profile_url := none
    rating := none, review_title := none, review_text := xStr
    review_url := none, review_date := 0, helpful_count := 0
    verified := false, sentiment_score := none, response_text := none
    response_date := none, images := none, extra_data := none }

/-- A review row whose id and review_date are the given index. -/
def mkRev (i : Nat) : Review :=
  { baseReview with id := i, review_date := i }

/-- A store of 45 active reviews with distinct dates. -/
def c8store : Store := { rows := (List.range 45).map mkRev, nextId := 45 }

def emptyStr : String := ""

/-- An active review whose entity_identifier is the non-empty string x. -/
def c9review : Review :=
  { baseReview with id := 1, entity_identifier := some xStr }

def c9store : Store := { rows := [c9review], nextId := 2 }

/-- A filter value containing the LIKE single-character wildcard. -/
def aucStr : String := "a_c"

def abcStr : String := "abc"

def bStr : String := "b"

/-- An active review named abc. -/
def c9nreview : Review :=
  { baseReview with id := 2, entity_name := abcStr }

def c9nstore : Store := { rows := [c9nreview], nextId := 3 }

/-- A review with rating 4.0 and verified false. -/
def c7review : Review := { baseReview with id := 1, rating := some 4 }

def c7store : Store := { rows := [c7review], nextId := 2 }

/-- A partial update setting only verified to true. -/
def c7payload : ReviewUpdate := { emptyUpdate with verified := some true }

/-- The expected result: only verified and updated_at change. -/
def c7expected : Review :=
  { c7review with verified := true, updated_at := 5 }

def c10review : Review := { baseReview with id := 1 }

def c10store : Store := { rows := [c10review], nextId := 2 }

/-! Helper lemmas about the insertion sort realizing ORDER BY
review_date DESC and about the filter combinators. -/

namespace ReviewService

theorem length_insertDesc (r : Review) (l : List Review) :
    (insertDesc r l).length = l.length + 1 := by
  induction l with
  | nil => rfl
  | cons x xs ih =>
      unfold insertDesc
      by_cases h : x.review_date ≤ r.review_date
      · simp [h]
      · simp [h, ih]

theorem length_sortDateDesc (l : List Review) :
    (sortDateDesc l).length = l.length := by
  induction l with
  | nil => rfl
  | cons x xs ih =>
      show (insertDesc x (sortDateDesc xs)).length = xs.length + 1
      rw [length_insertDesc, ih]

theorem mem_insertDesc {a r : Review} {l : List Review} :
    a ∈ insertDesc r l ↔ a = r ∨ a ∈ l := by
  induction l with
  | nil => simp [insertDesc]
  | cons x xs ih =>
      unfold insertDesc
      by_cases h : x.review_date ≤ r.review_date
      · simp [h, List.mem_cons]
      · simp [h, List.mem_cons, ih]
        tauto

theorem mem_sortDateDesc {a : Review} {l : List Review} :
    a ∈ sortDateDesc l ↔ a ∈ l := by
  induction l with
  | nil => simp [sortDateDesc]
  | cons x xs ih =>
      show a ∈ insertDesc x (sortDateDesc xs) ↔ _
      rw [mem_insertDesc]
      simp [List.mem_cons, ih]

theorem pairwise_insertDesc {r : Review} {l : List Review}
    (h : l.Pairwise (fun a b => b.review_date ≤ a.review_date)) :
    (insertDesc r l).Pairwise
      (fun a b => b.review_date ≤ a.review_date) := by
  induction l with
  | nil => simp [insertDesc]
  | cons x xs ih =>
      rw [List.pairwise_cons] at h
      obtain ⟨hx, hxs⟩ := h
      unfold insertDesc
      by_cases hc : x.review_date ≤ r.review_date
      · rw [if_pos hc]
        refine List.Pairwise.cons ?_ (List.Pairwise.cons hx hxs)
        intro y hy
        rcases List.mem_cons.mp hy with rfl | hy2
        · exact hc
        · exact le_trans (hx y hy2) hc
      · rw [if_neg hc]
        refine List.Pairwise.cons ?_ (ih hxs)
        intro y hy
        rcases mem_insertDesc.mp hy with rfl | hy2
        · omega
        · exact hx y hy2

theorem pairwise_sortDateDesc (l : List Review) :
    (sortDateDesc l).Pairwise
      (fun a b => b.review_date ≤ a.review_date) := by
  induction l with
  | nil => simp [sortDateDesc]
  | cons x xs ih => exact pairwise_insertDesc ih

theorem ciContains_empty (h : String) : ciContains h "" = true := by
  show segsMatch [[]] (h.data.map Char.toLower) = true
  cases h.data.map Char.toLower with
  | nil => rfl
  | cons c cs => rfl

/-- Soundness of the earliest-placement search: a found remainder comes
from a position where the segment matches. -/
theorem findSegRest_sound (seg : List Char) :
    ∀ (text rest : List Char), findSegRest seg text = some rest →
      ∃ i, segMatchesAt seg (text.drop i) = true ∧
        rest = text.drop (i + seg.length) := by
  intro text
  induction text with
  | nil =>
      intro rest h
      unfold findSegRest at h
      by_cases hm : segMatchesAt seg [] = true
      · rw [if_pos hm] at h
        refine ⟨0, by simpa using hm, ?_⟩
        simp only [Option.some.injEq] at h
        rw [← h, List.drop_nil]
      · rw [if_neg hm] at h
        exact absurd h (by simp)
  | cons t ts ih =>
      intro rest h
      unfold findSegRest at h
      by_cases hm : segMatchesAt seg (t :: ts) = true
      · rw [if_pos hm] at h
        simp only [Option.some.injEq] at h
        exact ⟨0, by simpa using hm, by rw [← h, Nat.zero_add]⟩
      · rw [if_neg hm] at h
        obtain ⟨i, h1, h2⟩ := ih rest h
        refine ⟨i + 1, ?_, ?_⟩
        · simpa [List.drop_succ_cons] using h1
        · rw [show i + 1 + seg.length = i + seg.length + 1 from by omega,
            List.drop_succ_cons]
          exact h2

/-- Completeness of the earliest-placement search: when the segment
matches at some position, the search succeeds at a position that is at
least as early. -/
theorem findSegRest_complete (seg : List Char) :
    ∀ (text : List Char) (i : Nat),
      segMatchesAt seg (text.drop i) = true →
      ∃ j, j ≤ i ∧
        findSegRest seg text = some (text.drop (j + seg.length)) := by
  intro text
  induction text with
  | nil =>
      intro i h
      rw [List.drop_nil] at h
      refine ⟨0, Nat.zero_le i, ?_⟩
      unfold findSegRest
      rw [if_pos h, List.drop_nil]
  | cons t ts ih =>
      intro i h
      by_cases hm : segMatchesAt seg (t :: ts) = true
      · refine ⟨0, Nat.zero_le i, ?_⟩
        unfold findSegRest
        rw [if_pos hm, Nat.zero_add]
      · cases i with
        | zero =>
            rw [List.drop_zero] at h
            exact absurd h hm
        | succ i2 =>
            rw [List.drop_succ_cons] at h
            obtain ⟨j, hj, hf⟩ := ih i2 h
            refine ⟨j + 1, by omega, ?_⟩
            unfold findSegRest
            rw [if_neg hm, hf,
              show j + 1 + seg.length = j + seg.length + 1 from by omega,
              List.drop_succ_cons]

/-- The placement semantics only gets easier on a longer suffix. -/
theorem SegsHolds_drop {segs : List (List Char)} {t : List Char} (m : Nat)
    (h : SegsHolds segs (t.drop m)) : SegsHolds segs t := by
  cases segs with
  | nil => trivial
  | cons seg rest =>
      simp only [SegsHolds] at h ⊢
      obtain ⟨i, h1, h2⟩ := h
      refine ⟨m + i, ?_, ?_⟩
      · rw [← List.drop_drop]
        exact h1
      · have h3 : (t.drop m).drop (i + seg.length) =
            t.drop (m + i + seg.length) := by
          rw [List.drop_drop]
          congr 1
          omega
        rw [← h3]
        exact h2

/-- The greedy earliest-placement matcher decides exactly the LIKE
placement semantics. -/
theorem segsMatch_iff :
    ∀ (segs : List (List Char)) (text : List Char),
      segsMatch segs text = true ↔ SegsHolds segs text := by
  intro segs
  induction segs with
  | nil =>
      intro text
      simp [segsMatch, SegsHolds]
  | cons seg rest ih =>
      intro text
      simp only [SegsHolds]
      constructor
      · intro h
        unfold segsMatch at h
        cases hf : findSegRest seg text with
        | none =>
            rw [hf] at h
            exact absurd h (by simp)
        | some ts =>
            rw [hf] at h
            obtain ⟨i, h1, h2⟩ := findSegRest_sound seg text ts hf
            subst h2
            exact ⟨i, h1, (ih _).mp h⟩
      · rintro ⟨i, h1, h2⟩
        obtain ⟨j, hji, hf⟩ := findSegRest_complete seg text i h1
        unfold segsMatch
        rw [hf]
        refine (ih _).mpr ?_
        have h3 : text.drop (i + seg.length) =
            (text.drop (j + seg.length)).drop (i - j) := by
          rw [List.drop_drop]
          congr 1
          omega
        rw [h3] at h2
        exact SegsHolds_drop (i - j) h2

/-- A pattern without percent wildcards is a single segment. -/
theorem splitOnPercent_eq_single {l : List Char}
    (h : ('%' : Char) ∉ l) : splitOnPercent l = [l] := by
  induction l with
  | nil => rfl
  | cons c cs ih =>
      have h1 : (c == ('%' : Char)) = false := by
        rw [beq_eq_false_iff_ne]
        intro heq
        exact h (List.mem_cons.mpr (Or.inl heq.symm))
      unfold splitOnPercent
      rw [if_neg (by simp [h1]),
        ih (fun hm => h (List.mem_cons_of_mem _ hm))]

/-- A segment without underscore wildcards matches a prefix of the text
exactly when it equals that prefix. -/
theorem segMatchesAt_plain {seg : List Char} (h : ('_' : Char) ∉ seg) :
    ∀ text, segMatchesAt seg text = true ↔
      seg = text.take seg.length := by
  induction seg with
  | nil =>
      intro text
      simp [segMatchesAt]
  | cons c cs ih =>
      intro text
      cases text with
      | nil => simp [segMatchesAt]
      | cons t ts =>
          have h1 : (c == ('_' : Char)) = false := by
            rw [beq_eq_false_iff_ne]
            intro heq
            exact h (List.mem_cons.mpr (Or.inl heq.symm))
          simp only [segMatchesAt, h1, Bool.false_or, Bool.and_eq_true,
            beq_iff_eq]
          rw [ih (fun hm => h (List.mem_cons_of_mem _ hm)) ts]
          simp [List.take_succ_cons]

/-- On values free of both wildcard characters, the ilike test reduces
to the case-insensitive substring test. -/
theorem ciContains_plain (hay pat : String)
    (h1 : ('%' : Char) ∉ pat.data.map Char.toLower)
    (h2 : ('_' : Char) ∉ pat.data.map Char.toLower) :
    (ciContains hay pat = true ↔
      List.IsInfix (pat.data.map Char.toLower)
        (hay.data.map Char.toLower)) := by
  unfold ciContains
  rw [splitOnPercent_eq_single h1, segsMatch_iff]
  simp only [SegsHolds]
  constructor
  · rintro ⟨i, hm, -⟩
    rw [segMatchesAt_plain h2] at hm
    exact List.infix_iff_prefix_suffix.mpr
      ⟨(hay.data.map Char.toLower).drop i,
        List.prefix_iff_eq_take.mpr hm, List.drop_suffix _ _⟩
  · rintro ⟨s, t, hst⟩
    refine ⟨s.length, ?_, trivial⟩
    rw [segMatchesAt_plain h2]
    have hd : (hay.data.map Char.toLower).drop s.length =
        pat.data.map Char.toLower ++ t := by
      rw [← hst, List.append_assoc, List.drop_left]
    rw [hd]
    exact (List.take_left _ _).symm

theorem optWhere_eq_filter {α : Type} (arg : Option α)
    (test : α → Review → Bool) (q : List Review) :
    optWhere arg test q =
      q.filter (fun r =>
        match arg with
        | some v => test v r
        | none => true) := by
  cases arg with
  | none => simp [optWhere]
  | some v => rfl

theorem strWhere_eq_filter_if (arg : Option String)
    (test : String → Review → Bool) (q : List Review) :
    strWhere arg test q =
      q.filter (fun r =>
        match arg with
        | some v => if v = "" then true else test v r
        | none => true) := by
  cases arg with
  | none => simp [strWhere]
  | some v =>
      by_cases hv : v = ""
      · simp [strWhere, hv]
      · simp [strWhere, hv]

theorem boolWhere_eq_filter (flag : Bool) (test : Review → Bool)
    (q : List Review) :
    boolWhere flag test q = q.filter (fun r => !flag || test r) := by
  cases flag <;> simp [boolWhere]

/-- The filter chain of get_reviews equals one filter by the conjunction
of the supplied filters, followed by the descending sort and the
offset/limit window. -/
theorem get_reviews_spec_eq (s : Store) (et : Option EntityType)
    (en ei : Option String) (p : Option Platform) (mn mx : Option Rat)
    (vo ia : Bool) (lim off : Nat) :
    get_reviews s et en ei p mn mx vo ia lim off =
      ((sortDateDesc (s.rows.filter
        (TheReview.specMatches et en ei p mn mx vo ia))).drop off).take
          lim := by
  simp only [get_reviews, optWhere_eq_filter, strWhere_eq_filter_if,
    boolWhere_eq_filter, List.filter_filter]
  congr 1
  congr 1
  congr 1
  refine List.filter_congr fun r hr => ?_
  simp only [TheReview.specMatches]
  rcases et with _ | et <;> rcases p with _ | p <;>
    rcases mn with _ | mn <;> rcases mx with _ | mx <;>
    rcases ei with _ | ei <;> rcases en with _ | en <;>
    (try by_cases hen : en = "") <;>
    first
      | (subst hen
         simp [ciContains_empty, Bool.and_comm, Bool.and_left_comm,
           Bool.and_assoc])
      | simp [hen, Bool.and_comm, Bool.and_left_comm, Bool.and_assoc]
      | simp [Bool.and_comm, Bool.and_left_comm, Bool.and_assoc]

/-- An inactive row of a store is absent from the unfiltered default
query (is_active true) and present in the query that explicitly asks for
inactive rows, when the window is wide enough to hold the whole store. -/
theorem inactive_row_query_visibility (s : Store) (x : Review)
    (hx : x ∈ s.rows) (hxa : x.is_active = false) :
    x ∉ get_reviews s none none none none none none false true
      s.rows.length 0 ∧
    x ∈ get_reviews s none none none none none none false false
      s.rows.length 0 := by
  constructor
  · rw [get_reviews_spec_eq]
    intro hmem
    have h1 := List.take_subset _ _ hmem
    have h2 := List.drop_subset _ _ h1
    rw [mem_sortDateDesc] at h2
    have h3 := (List.mem_filter.mp h2).2
    simp [TheReview.specMatches, hxa] at h3
  · rw [get_reviews_spec_eq, List.drop_zero]
    have hlen : (sortDateDesc (s.rows.filter
        (TheReview.specMatches none none none none none none false
          false))).length ≤ s.rows.length := by
      rw [length_sortDateDesc]
      exact List.length_filter_le _ _
    rw [List.take_of_length_le hlen, mem_sortDateDesc, List.mem_filter]
    refine ⟨hx, ?_⟩
    simp [TheReview.specMatches, hxa]

end ReviewService

/-! Theorems for the permission claims. -/

/-- C1: for every user whose stored role is teacher, every custom
permission override store, and every action string, the api check with
target admin returns false: the teacher → admin rule fires before the
capability-list and can_manage_all dispatch and short-circuits it,
regardless of any override. -/
theorem c1_teacher_never_manages_admin
    (custom : List (String × PermOverride)) (u : UserDoc) (action : String)
    (h : u.role = some teacherStr) :
    ApiUser.check_permission custom u .ADMIN action = .ok false := by
  have hrole : ApiUser.get_user_role u = .ok .TEACHER := by
    unfold ApiUser.get_user_role
    rw [h]
    rfl
  simp [ApiUser.check_permission, ApiUser.get_user_permissions, hrole]

/-- C1 witness: a concrete teacher whose override grants can_update over
admins is still denied the update action on an admin target. -/
theorem c1_witness :
    ApiUser.check_permission c1custom c1user .ADMIN updateStr = .ok false :=
  c1_teacher_never_manages_admin c1custom c1user updateStr rfl

/-- C2: the utils variant of get_user_role evaluates UserRole.REVIEWER on
every call, which raises AttributeError because REVIEWER is not a member
of the UserRole enum; consequently get_user_permissions and
check_permission of that module raise on every input as well. -/
theorem c2_utils_module_always_raises :
    (∀ u : UserDoc, UtilsUser.get_user_role u = .error .attributeError) ∧
    (∀ (custom : List (String × PermOverride)) (u : UserDoc),
      UtilsUser.get_user_permissions custom u = .error .attributeError) ∧
    (∀ (custom : List (String × PermOverride)) (u : UserDoc)
      (target : UserRole) (action : String),
      UtilsUser.check_permission custom u target action =
        .error .attributeError) := by
  have h1 : ∀ u : UserDoc,
      UtilsUser.get_user_role u = .error .attributeError := fun _ => rfl
  have h2 : ∀ (custom : List (String × PermOverride)) (u : UserDoc),
      UtilsUser.get_user_permissions custom u = .error .attributeError := by
    intro custom u
    simp only [UtilsUser.get_user_permissions, h1 u]
  refine ⟨h1, h2, ?_⟩
  intro custom u target action
  simp only [UtilsUser.check_permission, h2 custom u]

/-- C3 counterexample: a teacher with an override granting can_update over
admins has admin in the effective can_update list, yet the check for the
update action on an admin target returns false — so the check is not
equivalent to the capability-list/can_manage_all formula alone. -/
theorem c3_counterexample :
    ApiUser.get_user_permissions c3custom c3user = .ok c3perms ∧
    UserRole.ADMIN ∈ c3perms.can_update ∧
    ApiUser.check_permission c3custom c3user .ADMIN updateStr =
      .ok false := by
  refine ⟨rfl, ?_, rfl⟩
  decide

/-- C3 amended: for every user whose role resolves and whose effective
permissions are perms, the check returns true iff the teacher → admin rule
does not apply AND the action is one of the four recognized actions with
target in the corresponding capability list or can_manage_all set with a
non-admin target; any unrecognized action yields false. -/
theorem c3_check_permission_characterization
    (custom : List (String × PermOverride)) (u : UserDoc)
    (target : UserRole) (action : String) (r : UserRole) (perms : Perms)
    (hr : ApiUser.get_user_role u = .ok r)
    (hp : ApiUser.get_user_permissions custom u = .ok perms) :
    (ApiUser.check_permission custom u target action = .ok true ↔
      (¬(r = .TEACHER ∧ target = .ADMIN) ∧
        ((action = createStr ∧ (target ∈ perms.can_create ∨
            (perms.can_manage_all ∧ target ≠ .ADMIN))) ∨
         (action = viewStr ∧ (target ∈ perms.can_view ∨
            (perms.can_manage_all ∧ target ≠ .ADMIN))) ∨
         (action = updateStr ∧ (target ∈ perms.can_update ∨
            (perms.can_manage_all ∧ target ≠ .ADMIN))) ∨
         (action = deleteStr ∧ (target ∈ perms.can_delete ∨
            (perms.can_manage_all ∧ target ≠ .ADMIN)))))) ∧
    (action ∉ [createStr, viewStr, updateStr, deleteStr] →
      ApiUser.check_permission custom u target action = .ok false) := by
  have hcp : ApiUser.check_permission custom u target action =
      (if r = .TEACHER ∧ target = .ADMIN then .ok false
       else if action = createStr then
        .ok (decide (target ∈ perms.can_create ∨
          (perms.can_manage_all ∧ target ≠ .ADMIN)))
       else if action = viewStr then
        .ok (decide (target ∈ perms.can_view ∨
          (perms.can_manage_all ∧ target ≠ .ADMIN)))
       else if action = updateStr then
        .ok (decide (target ∈ perms.can_update ∨
          (perms.can_manage_all ∧ target ≠ .ADMIN)))
       else if action = deleteStr then
        .ok (decide (target ∈ perms.can_delete ∨
          (perms.can_manage_all ∧ target ≠ .ADMIN)))
       else .ok false) := by
    simp only [ApiUser.check_permission, hp, hr]
  have ncv : createStr ≠ viewStr := by decide
  have ncu : createStr ≠ updateStr := by decide
  have ncd : createStr ≠ deleteStr := by decide
  have nvu : viewStr ≠ updateStr := by decide
  have nvd : viewStr ≠ deleteStr := by decide
  have nud : updateStr ≠ deleteStr := by decide
  constructor
  · rw [hcp]
    by_cases hT : r = .TEACHER ∧ target = .ADMIN
    · simp [hT]
    · rw [if_neg hT]
      by_cases h1 : action = createStr
      · subst h1
        simp [hT, ncv, ncu, ncd]
      · rw [if_neg h1]
        by_cases h2 : action = viewStr
        · subst h2
          simp [hT, (Ne.symm ncv), nvu, nvd]
        · rw [if_neg h2]
          by_cases h3 : action = updateStr
          · subst h3
            simp [hT, (Ne.symm ncu), (Ne.symm nvu), nud]
          · rw [if_neg h3]
            by_cases h4 : action = deleteStr
            · subst h4
              simp [hT, (Ne.symm ncd), (Ne.symm nvd), (Ne.symm nud)]
            · rw [if_neg h4]
              simp [h1, h2, h3, h4]
  · intro hnot
    simp only [List.mem_cons, List.not_mem_nil, or_false, not_or] at hnot
    obtain ⟨h1, h2, h3, h4⟩ := hnot
    rw [hcp]
    by_cases hT : r = .TEACHER ∧ target = .ADMIN
    · rw [if_pos hT]
    · rw [if_neg hT, if_neg h1, if_neg h2, if_neg h3, if_neg h4]

/-- C3 witness: the characterization instantiated at a concrete teacher
with an admin-granting override, showing the check denies the update even
though the formula side would allow it, and an unknown action is denied. -/
theorem c3_witness :
    ¬(ApiUser.check_permission c3custom c3user .ADMIN updateStr =
        .ok true) ∧
    ApiUser.check_permission c3custom c3user .ADMIN adminStr =
      .ok false := by
  have h := c3_check_permission_characterization c3custom c3user .ADMIN
    updateStr .TEACHER c3perms rfl rfl
  have h2 := c3_check_permission_characterization c3custom c3user .ADMIN
    adminStr .TEACHER c3perms rfl rfl
  constructor
  · intro hc
    have := h.1.mp hc
    exact this.1 ⟨rfl, rfl⟩
  · exact h2.2 (by decide)

/-- C4: when an override exists for the user, every capability field
present in the override fully replaces the base role value and every
absent field keeps the base role value; the teacher base can_create is
the singleton student list, so an override setting can_create to the
empty list yields an effective empty can_create. -/
theorem c4_override_replaces_fields
    (custom : List (String × PermOverride)) (u : UserDoc) (r : UserRole)
    (ov : PermOverride) (perms : Perms)
    (hr : ApiUser.get_user_role u = .ok r)
    (hov : lookupOverride custom u._id = some ov)
    (hp : ApiUser.get_user_permissions custom u = .ok perms) :
    ((∀ l, ov.can_create = some l → perms.can_create = l) ∧
     (ov.can_create = none →
       perms.can_create = (ROLE_PERMISSIONS r).can_create)) ∧
    ((∀ l, ov.can_view = some l → perms.can_view = l) ∧
     (ov.can_view = none →
       perms.can_view = (ROLE_PERMISSIONS r).can_view)) ∧
    ((∀ l, ov.can_update = some l → perms.can_update = l) ∧
     (ov.can_update = none →
       perms.can_update = (ROLE_PERMISSIONS r).can_update)) ∧
    ((∀ l, ov.can_delete = some l → perms.can_delete = l) ∧
     (ov.can_delete = none →
       perms.can_delete = (ROLE_PERMISSIONS r).can_delete)) ∧
    ((∀ b, ov.can_manage_all = some b → perms.can_manage_all = b) ∧
     (ov.can_manage_all = none →
       perms.can_manage_all = (ROLE_PERMISSIONS r).can_manage_all)) ∧
    (ROLE_PERMISSIONS .TEACHER).can_create = [.STUDENT] := by
  simp only [ApiUser.get_user_permissions, hr, hov, Option.getD_some,
    Except.ok.injEq] at hp
  subst hp
  refine ⟨⟨?_, ?_⟩, ⟨?_, ?_⟩, ⟨?_, ?_⟩, ⟨?_, ?_⟩, ⟨?_, ?_⟩, rfl⟩ <;>
    first
      | (intro l hl; simp [hl])
      | (intro hl; simp [hl])

/-- C4 witness: a concrete teacher whose override sets can_create to the
empty list ends up with effective can_create equal to the empty list, not
the base singleton student list. -/
theorem c4_witness :
    ApiUser.get_user_permissions c4custom c4user = .ok c4perms ∧
    c4perms.can_create = [] := by
  refine ⟨rfl, ?_⟩
  exact (c4_override_replaces_fields c4custom c4user .TEACHER c4ov c4perms
    rfl rfl rfl).1.1 [] rfl

/-- C5: the store holds exactly one qualifying review for entity e — an
active review with a non-null rating, namely 0.0 — yet get_average_rating
returns none instead of the mean 0.0: the Python truthiness test conflates
a zero average with the absence of ratings, contradicting the documented
contract of returning none only when no rated review exists. -/
theorem c5_zero_mean_returns_none :
    (c5store.rows.filter (fun r =>
      decide (r.entity_identifier = some eStr) && r.is_active &&
        decide (r.rating ≠ none))).filterMap (fun r => r.rating) = [0] ∧
    ReviewService.get_average_rating c5store eStr = none := by
  constructor
  · decide
  · simp [ReviewService.get_average_rating, c5store, c5review, baseReview,
      eStr]

/-- C6: when the store already holds exactly one row with the incoming
platform_review_id, create_review fails with the duplicate-key error and
the store afterwards still holds exactly one row with that id — the
failure is propagated, nothing is inserted and nothing is retried. -/
theorem c6_duplicate_create (now : Nat) (s : Store) (d : ReviewCreate)
    (h : (s.rows.filter (fun r =>
      r.platform_review_id == d.platform_review_id)).length = 1) :
    (ReviewService.create_review now s d).1 = .error .duplicateKey ∧
    (((ReviewService.create_review now s d).2).rows.filter (fun r =>
      r.platform_review_id == d.platform_review_id)).length = 1 := by
  have hne : s.rows.filter (fun r =>
      r.platform_review_id == d.platform_review_id) ≠ [] := by
    intro he
    rw [he] at h
    simp at h
  obtain ⟨x, hx⟩ := List.exists_mem_of_ne_nil _ hne
  have hany : s.rows.any (fun r =>
      r.platform_review_id == d.platform_review_id) = true :=
    List.any_eq_true.mpr
      ⟨x, (List.mem_filter.mp hx).1, (List.mem_filter.mp hx).2⟩
  constructor
  · simp [ReviewService.create_review, hany]
  · simpa [ReviewService.create_review, hany] using h

/-- C6 witness: creating a second review with the platform_review_id
already present in a concrete one-row store fails with the duplicate-key
error and leaves exactly one row with that id. -/
theorem c6_witness :
    (ReviewService.create_review 9 c6store c6data).1 =
      .error .duplicateKey ∧
    (((ReviewService.create_review 9 c6store c6data).2).rows.filter
      (fun r => r.platform_review_id == c6data.platform_review_id)).length
        = 1 :=
  c6_duplicate_create 9 c6store c6data rfl

/-- C7: update changes exactly the fields explicitly present in the
payload plus updated_at, which is always set to the update time; every
field absent from the payload — and the server-side id, scraped_at and
created_at — retains its prior value, a present field is set to its
payload value (for a nullable column an explicit null clears it, which is
distinct from absence), and every other row of the store is untouched. -/
theorem c7_partial_update_frame (now : Nat) (s : Store) (id : Nat)
    (p : ReviewUpdate) (r r2 : Review)
    (h : s.rows.find? (fun x => x.id == id) = some r)
    (hu : (ReviewService.update_review now s id p).1 = some r2) :
    ((∀ v, p.entity_type = some v → r2.entity_type = v) ∧
     (p.entity_type = none → r2.entity_type = r.entity_type)) ∧
    ((∀ v, p.entity_name = some v → r2.entity_name = v) ∧
     (p.entity_name = none → r2.entity_name = r.entity_name)) ∧
    ((∀ v, p.entity_identifier = some v → r2.entity_identifier = v) ∧
     (p.entity_identifier = none →
       r2.entity_identifier = r.entity_identifier)) ∧
    ((∀ v, p.platform = some v → r2.platform = v) ∧
     (p.platform = none → r2.platform = r.platform)) ∧
    ((∀ v, p.platform_review_id = some v → r2.platform_review_id = v) ∧
     (p.platform_review_id = none →
       r2.platform_review_id = r.platform_review_id)) ∧
    ((∀ v, p.reviewer_name = some v → r2.reviewer_name = v) ∧
     (p.reviewer_name = none → r2.reviewer_name = r.reviewer_name)) ∧
    ((∀ v, p.reviewer_identifier = some v → r2.reviewer_identifier = v) ∧
     (p.reviewer_identifier = none →
       r2.reviewer_identifier = r.reviewer_identifier)) ∧
    ((∀ v, p.reviewer_profile_url = some v →
       r2.reviewer_profile_url = v) ∧
     (p.reviewer_profile_url = none →
       r2.reviewer_profile_url = r.reviewer_profile_url)) ∧
    ((∀ v, p.rating = some v → r2.rating = v) ∧
     (p.rating = none → r2.rating = r.rating)) ∧
    ((∀ v, p.review_title = some v → r2.review_title = v) ∧
     (p.review_title = none → r2.review_title = r.review_title)) ∧
    ((∀ v, p.review_text = some v → r2.review_text = v) ∧
     (p.review_text = none → r2.review_text = r.review_text)) ∧
    ((∀ v, p.review_url = some v → r2.review_url = v) ∧
     (p.review_url = none → r2.review_url = r.review_url)) ∧
    ((∀ v, p.review_date = some v → r2.review_date = v) ∧
     (p.review_date = none → r2.review_date = r.review_date)) ∧
    ((∀ v, p.helpful_count = some v → r2.helpful_count = v) ∧
     (p.helpful_count = none → r2.helpful_count = r.helpful_count)) ∧
    ((∀ v, p.verified = some v → r2.verified = v) ∧
     (p.verified = none → r2.verified = r.verified)) ∧
    ((∀ v, p.sentiment_score = some v → r2.sentiment_score = v) ∧
     (p.sentiment_score = none →
       r2.sentiment_score = r.sentiment_score)) ∧
    ((∀ v, p.response_text = some v → r2.response_text = v) ∧
     (p.response_text = none → r2.response_text = r.response_text)) ∧
    ((∀ v, p.response_date = some v → r2.response_date = v) ∧
     (p.response_date = none → r2.response_date = r.response_date)) ∧
    ((∀ v, p.images = some v → r2.images = v) ∧
     (p.images = none → r2.images = r.images)) ∧
    ((∀ v, p.extra_data = some v → r2.extra_data = v) ∧
     (p.extra_data = none → r2.extra_data = r.extra_data)) ∧
    ((∀ v, p.is_active = some v → r2.is_active = v) ∧
     (p.is_active = none → r2.is_active = r.is_active)) ∧
    r2.updated_at = now ∧
    r2.id = r.id ∧
    r2.scraped_at = r.scraped_at ∧
    r2.created_at = r.created_at ∧
    (ReviewService.update_review now s id p).2.rows =
      s.rows.map (fun x => if x.id == id then r2 else x) := by
  simp only [ReviewService.update_review, h, Option.some.injEq] at hu
  subst hu
  exact ⟨⟨fun v hv => by simp [hv], fun hv => by simp [hv]⟩,
    ⟨fun v hv => by simp [hv], fun hv => by simp [hv]⟩,
    ⟨fun v hv => by simp [hv], fun hv => by simp [hv]⟩,
    ⟨fun v hv => by simp [hv], fun hv => by simp [hv]⟩,
    ⟨fun v hv => by simp [hv], fun hv => by simp [hv]⟩,
    ⟨fun v hv => by simp [hv], fun hv => by simp [hv]⟩,
    ⟨fun v hv => by simp [hv], fun hv => by simp [hv]⟩,
    ⟨fun v hv => by simp [hv], fun hv => by simp [hv]⟩,
    ⟨fun v hv => by simp [hv], fun hv => by simp [hv]⟩,
    ⟨fun v hv => by simp [hv], fun hv => by simp [hv]⟩,
    ⟨fun v hv => by simp [hv], fun hv => by simp [hv]⟩,
    ⟨fun v hv => by simp [hv], fun hv => by simp [hv]⟩,
    ⟨fun v hv => by simp [hv], fun hv => by simp [hv]⟩,
    ⟨fun v hv => by simp [hv], fun hv => by simp [hv]⟩,
    ⟨fun v hv => by simp [hv], fun hv => by simp [hv]⟩,
    ⟨fun v hv => by simp [hv], fun hv => by simp [hv]⟩,
    ⟨fun v hv => by simp [hv], fun hv => by simp [hv]⟩,
    ⟨fun v hv => by simp [hv], fun hv => by simp [hv]⟩,
    ⟨fun v hv => by simp [hv], fun hv => by simp [hv]⟩,
    ⟨fun v hv => by simp [hv], fun hv => by simp [hv]⟩,
    ⟨fun v hv => by simp [hv], fun hv => by simp [hv]⟩,
    rfl, rfl, rfl, rfl, by simp [ReviewService.update_review, h]⟩

/-- C7 witness: updating only verified on a concrete review with rating
4.0 yields a review whose rating is still 4.0, whose verified flag is
true and whose updated_at is the update time. -/
theorem c7_witness :
    (ReviewService.update_review 5 c7store 1 c7payload).1 =
      some c7expected ∧
    c7expected.rating = some 4 ∧ c7expected.verified = true ∧
    c7expected.updated_at = 5 := by
  have hu : (ReviewService.update_review 5 c7store 1 c7payload).1 =
      some c7expected := by decide
  obtain ⟨_, _, _, _, _, _, _, _, ⟨hrs, hrn⟩, _, _, _, _, _,
      ⟨hvs, hvn⟩, _, _, _, _, _, _, hua, _⟩ :=
    c7_partial_update_frame 5 c7store 1 c7payload c7review c7expected
      rfl hu
  exact ⟨hu, (hrn rfl).trans rfl, hvs true rfl, hua⟩

/-- C8: the paginated query reports the size of the filtered set before
pagination as its total, returns the window of the ordered filtered set
at offset (page - 1) * page_size, returns at most page_size rows, and in
the 45-rows/page-size-20 scenario pages 1..3 return 20, 20 and 5 rows
whose concatenation is exactly the ordered filtered set (no overlap, no
gap), with ceil(45 / 20) = 3. -/
theorem c8_pagination (s : Store) (et : Option EntityType)
    (p : Option Platform) (mr : Option Rat) (page psz : Nat) :
    (ReviewService.get_reviews_paginated s page psz et p mr).2 =
      (ReviewService.pagFiltered s et p mr).length ∧
    (ReviewService.get_reviews_paginated s page psz et p mr).1 =
      ((ReviewService.sortDateDesc
        (ReviewService.pagFiltered s et p mr)).drop
          ((page - 1) * psz)).take psz ∧
    (ReviewService.get_reviews_paginated s page psz et p mr).1.length ≤
      psz ∧
    ((ReviewService.get_reviews_paginated s 1 20 et p mr).2 = 45 →
      (ReviewService.get_reviews_paginated s 1 20 et p mr).1.length = 20 ∧
      (ReviewService.get_reviews_paginated s 2 20 et p mr).1.length = 20 ∧
      (ReviewService.get_reviews_paginated s 3 20 et p mr).1.length = 5 ∧
      (ReviewService.get_reviews_paginated s 1 20 et p mr).1 ++
        (ReviewService.get_reviews_paginated s 2 20 et p mr).1 ++
        (ReviewService.get_reviews_paginated s 3 20 et p mr).1 =
        ReviewService.sortDateDesc (ReviewService.pagFiltered s et p mr) ∧
      (45 + 20 - 1) / 20 = 3) := by
  have h2 : ∀ page psz : Nat,
      (ReviewService.get_reviews_paginated s page psz et p mr).1 =
        ((ReviewService.sortDateDesc
          (ReviewService.pagFiltered s et p mr)).drop
            ((page - 1) * psz)).take psz := fun _ _ => rfl
  refine ⟨rfl, rfl, ?_, ?_⟩
  · rw [h2]
    simp [List.length_take]
  · intro h45
    have hl : (ReviewService.sortDateDesc
        (ReviewService.pagFiltered s et p mr)).length = 45 := by
      rw [ReviewService.length_sortDateDesc]
      exact h45
    refine ⟨?_, ?_, ?_, ?_, by norm_num⟩
    · rw [h2]
      simp [List.length_take, List.length_drop, hl]
    · rw [h2]
      simp [List.length_take, List.length_drop, hl]
    · rw [h2]
      simp [List.length_take, List.length_drop, hl]
    · rw [h2 1 20, h2 2 20, h2 3 20]
      norm_num
      have e3 : List.take 20 (List.drop 40 (ReviewService.sortDateDesc
          (ReviewService.pagFiltered s et p mr))) =
          List.drop 40 (ReviewService.sortDateDesc
            (ReviewService.pagFiltered s et p mr)) := by
        refine List.take_of_length_le ?_
        rw [List.length_drop, hl]
        norm_num
      have e4 : List.drop 40 (ReviewService.sortDateDesc
          (ReviewService.pagFiltered s et p mr)) =
          List.drop 20 (List.drop 20 (ReviewService.sortDateDesc
            (ReviewService.pagFiltered s et p mr))) := by
        rw [List.drop_drop]
      rw [e3, e4, List.take_append_drop, List.take_append_drop]

/-- C8 witness: on a concrete 45-row store with page size 20, page 3
returns exactly 5 rows. -/
theorem c8_witness :
    (ReviewService.get_reviews_paginated c8store 3 20 none none
      none).1.length = 5 := by
  have h := c8_pagination c8store none none none 3 20
  have h45 : (ReviewService.get_reviews_paginated c8store 1 20 none none
      none).2 = 45 := by decide
  exact (h.2.2.2 h45).2.2.1

/-- C9 counterexample: two supplied filters behave otherwise than the
claim states.  With entity_identifier set to the empty string the query
returns a review whose entity_identifier is the non-empty string x — the
code treats the empty-string value as absent (Python truthiness), not as
an exact match.  With entity_name set to the value a_c the query returns
a review named abc although a_c is not a case-insensitive substring of
abc — the underscore in the unescaped interpolated ilike pattern acts as
a single-character wildcard, not as a literal. -/
theorem c9_counterexample :
    (ReviewService.get_reviews c9store none none (some emptyStr) none
      none none false true 100 0 = [c9review] ∧
     c9review.entity_identifier ≠ some emptyStr) ∧
    (ReviewService.get_reviews c9nstore none (some aucStr) none none
      none none false true 100 0 = [c9nreview] ∧
     ¬ List.IsInfix (aucStr.data.map Char.toLower)
       (c9nreview.entity_name.data.map Char.toLower)) := by
  refine ⟨⟨?_, ?_⟩, ?_, ?_⟩ <;> decide

/-- C9 amended: the query equals the window (offset then limit) of the
descending-review_date ordering of exactly the rows satisfying the
conjunction of the supplied filters — entity_type exact, entity_name
matched case-insensitively by the SQL LIKE pattern built by wrapping the
supplied value in percent wildcards (percent and underscore inside the
value act as LIKE wildcards; a value free of them reduces to a
case-insensitive substring test), entity_identifier exact when non-empty
(an empty-string value is treated as not supplied), platform exact,
min_rating/max_rating inclusive bounds on a present rating,
verified_only restricting to verified rows, is_active as requested — and
the result is ordered by review_date descending.  The last two
conjuncts pin the entity_name test to the LIKE placement semantics and
to its substring reduction on wildcard-free values. -/
theorem c9_conjunctive_filters (s : Store) (et : Option EntityType)
    (en ei : Option String) (p : Option Platform) (mn mx : Option Rat)
    (vo ia : Bool) (lim off : Nat) :
    (ReviewService.get_reviews s et en ei p mn mx vo ia lim off =
      ((ReviewService.sortDateDesc (s.rows.filter
        (specMatches et en ei p mn mx vo ia))).drop off).take lim) ∧
    ((ReviewService.get_reviews s et en ei p mn mx vo ia lim
      off).Pairwise (fun a b => b.review_date ≤ a.review_date)) ∧
    (∀ hay pat : String, ReviewService.ciContains hay pat = true ↔
      ReviewService.SegsHolds
        (ReviewService.splitOnPercent (pat.data.map Char.toLower))
        (hay.data.map Char.toLower)) ∧
    (∀ hay pat : String, ('%' : Char) ∉ pat.data.map Char.toLower →
      ('_' : Char) ∉ pat.data.map Char.toLower →
      (ReviewService.ciContains hay pat = true ↔
        List.IsInfix (pat.data.map Char.toLower)
          (hay.data.map Char.toLower))) := by
  refine ⟨ReviewService.get_reviews_spec_eq s et en ei p mn mx vo ia lim
    off, ?_, ?_, ?_⟩
  · rw [ReviewService.get_reviews_spec_eq]
    exact List.Pairwise.sublist
      ((List.take_sublist _ _).trans (List.drop_sublist _ _))
      (ReviewService.pairwise_sortDateDesc _)
  · intro hay pat
    exact ReviewService.segsMatch_iff _ _
  · intro hay pat h1 h2
    exact ReviewService.ciContains_plain hay pat h1 h2

/-- C9 witness: the amended theorem instantiated at the wildcard-free
value b and the name abc — the hypotheses that the value holds no
wildcard characters are discharged concretely, and the substring
reduction yields the match. -/
theorem c9_witness : ReviewService.ciContains abcStr bStr = true := by
  have h := (c9_conjunctive_filters c9nstore none none none none none
    none false true 0 0).2.2.2 abcStr bStr (by decide) (by decide)
  exact h.mpr (by decide)

/-- C10: deleting a missing id returns false and leaves the store
unchanged for both modes; soft delete returns true, rewrites exactly the
matching row to an inactive copy with refreshed updated_at (the row stays
present), after which any inactive row is hidden from the default query
but returned when inactive rows are explicitly requested; hard delete
returns true and removes exactly the rows with that id. -/
theorem c10_delete_review (now : Nat) (s : Store) (id : Nat) :
    (s.rows.find? (fun x => x.id == id) = none →
      ReviewService.delete_review now s id true = (false, s) ∧
      ReviewService.delete_review now s id false = (false, s)) ∧
    (∀ r, s.rows.find? (fun x => x.id == id) = some r →
      ((ReviewService.delete_review now s id true).1 = true ∧
       (ReviewService.delete_review now s id true).2.rows =
         s.rows.map (fun x =>
           if x.id == id then
             { x with is_active := false, updated_at := now }
           else x) ∧
       { r with is_active := false, updated_at := now } ∈
         (ReviewService.delete_review now s id true).2.rows ∧
       (∀ x ∈ (ReviewService.delete_review now s id true).2.rows,
         x.is_active = false →
         x ∉ ReviewService.get_reviews
           (ReviewService.delete_review now s id true).2 none none none
           none none none false true
           ((ReviewService.delete_review now s id true).2.rows.length) 0 ∧
         x ∈ ReviewService.get_reviews
           (ReviewService.delete_review now s id true).2 none none none
           none none none false false
           ((ReviewService.delete_review now s id true).2.rows.length)
             0)) ∧
      ((ReviewService.delete_review now s id false).1 = true ∧
       (ReviewService.delete_review now s id false).2.rows =
         s.rows.filter (fun x => !(x.id == id)) ∧
       (∀ x ∈ (ReviewService.delete_review now s id false).2.rows,
         x.id ≠ id))) := by
  constructor
  · intro h
    constructor
    · simp [ReviewService.delete_review, h]
    · simp [ReviewService.delete_review, h]
  · intro r hr
    have hrmem : r ∈ s.rows := List.mem_of_find?_eq_some hr
    have hrid : (r.id == id) = true := by
      have h3 := List.find?_some hr
      simpa using h3
    refine ⟨⟨?_, ?_, ?_, ?_⟩, ?_, ?_, ?_⟩
    · simp [ReviewService.delete_review, hr]
    · simp [ReviewService.delete_review, hr]
    · simp only [ReviewService.delete_review, hr]
      refine List.mem_map.mpr ⟨r, hrmem, ?_⟩
      simp [hrid]
    · intro x hx hxa
      exact ReviewService.inactive_row_query_visibility _ x hx hxa
    · simp [ReviewService.delete_review, hr]
    · simp [ReviewService.delete_review, hr]
    · intro x hx
      have hx2 : x ∈ s.rows ∧ ¬x.id = id := by
        simpa [ReviewService.delete_review, hr] using hx
      exact hx2.2

/-- C10 witness: on a concrete one-row store, soft delete of the present
id returns true and flips the row inactive, while delete of a missing id
returns false and leaves the store unchanged. -/
theorem c10_witness :
    (ReviewService.delete_review 7 c10store 1 true).1 = true ∧
    { c10review with is_active := false, updated_at := 7 } ∈
      (ReviewService.delete_review 7 c10store 1 true).2.rows ∧
    ReviewService.delete_review 7 c10store 99 true = (false, c10store) := by
  have h := c10_delete_review 7 c10store 1
  have h99 := c10_delete_review 7 c10store 99
  have hb := h.2 c10review rfl
  exact ⟨hb.1.1, hb.1.2.2.1, (h99.1 rfl).1⟩

end TheReview
